import Mathlib

/-!
# EV-Radar: verification of the scoring / decision / ranking pipeline

Shallow embedding of `radar_bot.py` (the core pipeline: `compute_ev_score`,
`decide_action`, the ranking and the per-cycle loop of `main`), with Python
floats modelled as rationals and missing dictionary fields as `Option`.
The Python built-in `round` (round-half-to-even) is modelled by `pyRound`.
-/

attribute [local semireducible] Rat.add Rat.mul Rat.sub Rat.inv

/-- One match record, as produced by the fetchers in `radar_bot.py`.
Only the identity and the quantitative fields read by the pipeline are
kept; the descriptive fields (league, team names, minute, score string)
are only interpolated into the digest text and play no role in scoring,
deciding or ranking. A field absent from the Python dict is `none`. -/
structure Match where
  id : String
  pressure : Option ℚ
  xg_total : Option ℚ
  sot : Option ℚ
  liquidity : Option ℚ
  odds_over25 : Option ℚ
deriving DecidableEq

/-- The Python built-in `round` on a real number, returning an integer:
round half to even (banker rounding), as used by `int(round(score))`. -/
def pyRound (q : ℚ) : ℤ :=
  if q - ⌊q⌋ < 1 / 2 then ⌊q⌋
  else if 1 / 2 < q - ⌊q⌋ then ⌊q⌋ + 1
  else if ⌊q⌋ % 2 = 0 then ⌊q⌋ else ⌊q⌋ + 1

/-- `compute_ev_score` from `radar_bot.py`: weighted sum of four capped
signal contributions plus two fixed bonuses, clamped to [0,100] and
rounded.  `match.get("pressure", 50)` defaults to 50; the other
quantitative fields default to 0. -/
def compute_ev_score (m : Match) : ℤ :=
  pyRound (max 0 (min 100
    ((m.pressure.getD 50 / 100) * 20
      + min (m.xg_total.getD 0 / 3) 1 * 30
      + min (m.sot.getD 0 / 10) 1 * 20
      + min (m.liquidity.getD 0 / 3000000) 1 * 10
      + 6 + 4)))

/-- The three decision tags produced by `decide_action`. -/
inductive Decision
  | ENTRAR
  | MONITORAR
  | IGNORAR
deriving DecidableEq

/-- `decide_action` from `radar_bot.py`.  `EV_THRESHOLD` (env default 65)
and `ODD_MIN` (env default 1.50) are passed explicitly; the display
threshold 55 is hard-coded in the source.  `match.get("odds_over25", 99)`
defaults a missing odds field to 99.  The accompanying suggestion string
is determined by the decision and is not modelled. -/
def decide_action (ev_threshold : ℤ) (odd_min : ℚ) (m : Match) (ev_score : ℤ) : Decision :=
  if ev_threshold ≤ ev_score ∧ odd_min ≤ m.odds_over25.getD 99 then .ENTRAR
  else if 55 ≤ ev_score ∧ ev_score < ev_threshold then .MONITORAR
  else .IGNORAR

/-- The ranking key of `main`: `m.get("liquidity", 0)`. -/
def liqKey (m : Match) : ℚ := m.liquidity.getD 0

/-- The comparison underlying
`sorted(matches, key=lambda m: m.get("liquidity",0), reverse=True)`:
keep `a` before `b` when the liquidity of `a` is at least that of `b`.
The Python `sorted` is a stable sort, so its output is exactly the stable
insertion sort by this relation. -/
def liqGE (a b : Match) : Prop := liqKey b ≤ liqKey a

instance : DecidableRel liqGE :=
  fun a b => inferInstanceAs (Decidable (liqKey b ≤ liqKey a))

instance : IsTotal Match liqGE := ⟨fun a b => le_total (liqKey b) (liqKey a)⟩

instance : IsTrans Match liqGE := ⟨fun _ _ _ h1 h2 => le_trans h2 h1⟩

/-- Line 206 of `radar_bot.py`:
`matches = sorted(matches, key=lambda m: m.get("liquidity",0), reverse=True)[:MAX_GAMES]`.
Note this runs before any scoring and uses liquidity as the only key. -/
def rank (max_games : Nat) (ms : List Match) : List Match :=
  (List.insertionSort liqGE ms).take max_games

/-- A match together with the `ev_score` and `decision` attached to it by
the loop body of `main`. -/
structure ScoredMatch where
  base : Match
  ev_score : ℤ
  decision : Decision
deriving DecidableEq

/-- Test used at line 236 of `main`: `m.get("decision") == "ENTRAR"`. -/
def Decision.isEnter : Decision → Bool
  | .ENTRAR => true
  | _ => false

/-- One iteration of the loop body of `main`: score the match, then
decide on it. -/
def scoreDecide (ev_threshold : ℤ) (odd_min : ℚ) (m : Match) : ScoredMatch :=
  let ev := compute_ev_score m
  ⟨m, ev, decide_action ev_threshold odd_min m ev⟩

/-- The data flow of one cycle of `main` (lines 205-243): rank the fetched
matches, score and decide each ranked match in order, and return the pair
(rows handed to `save_csv`, notifier invocations): `save_csv` receives one
row per processed match, and `send_telegram` is called exactly once per
match decided `ENTRAR`, in loop order. -/
def processCycle (ev_threshold : ℤ) (odd_min : ℚ) (max_games : Nat)
    (ms : List Match) : List ScoredMatch × List ScoredMatch :=
  let scored := (rank max_games ms).map (scoreDecide ev_threshold odd_min)
  (scored, scored.filter (fun s => s.decision.isEnter))

/-- Outcome of one invocation of `main`: either the cycle completes,
having attempted the given number of notifications, or the top-level
handler (lines 246-248) catches an error, logs it and calls
`sys.exit(1)`. -/
inductive RunResult
  | completed (alertAttempts : Nat)
  | exited (code : Nat)
deriving DecidableEq

/-- `main` from `radar_bot.py`, with the outcome of the fetch stage made
explicit: any uncaught error raised inside the cycle reaches the
`except` clause at line 246, which logs it and terminates the whole
process via `sys.exit(1)`. -/
def mainRun (ev_threshold : ℤ) (odd_min : ℚ) (max_games : Nat)
    (fetched : Except String (List Match)) : RunResult :=
  match fetched with
  | .error _ => .exited 1
  | .ok ms =>
      .completed (processCycle ev_threshold odd_min max_games ms).2.length

/-- Modelled from the spec: `shouldAlert` of the Dedup Ledger (§4.4).  The
spec describes a module-level sent-set in the repository (§9) which is not
among the files examined here (`radar_bot.py` itself alerts on every
`ENTRAR` record unconditionally); per §4.4 an identity is alert-eligible
only while it is absent from the ledger. -/
def shouldAlert (ledger : Finset String) (ident : String) : Bool :=
  decide (ident ∉ ledger)

/-- Modelled from the spec: `record` of the Dedup Ledger (§4.4): after an
`Enter` notification attempt, the identity is unconditionally added,
regardless of delivery success. -/
def recordAlert (ledger : Finset String) (ident : String) : Finset String :=
  insert ident ledger

/-- Modelled from the spec: one cycle in which `ident` qualifies for
`Enter` (§4.4): the notifier is invoked (one attempt) only if the ledger
admits the identity, which is then recorded. -/
def dedupCycle (ledger : Finset String) (ident : String) : Finset String × Nat :=
  if shouldAlert ledger ident then (recordAlert ledger ident, 1) else (ledger, 0)

/-- Modelled from the spec: `n` consecutive cycles in each of which
`ident` qualifies for `Enter`; returns the final ledger and the total
number of `Enter` notifications sent across the `n` cycles. -/
def dedupRun (ledger : Finset String) (ident : String) : Nat → Finset String × Nat
  | 0 => (ledger, 0)
  | n + 1 =>
      let step := dedupCycle ledger ident
      let rest := dedupRun step.1 ident n
      (rest.1, step.2 + rest.2)

/-! ## Helper lemmas about `pyRound` -/

theorem le_pyRound {a : ℤ} {q : ℚ} (h : (a : ℚ) ≤ q) : a ≤ pyRound q := by
  have hf : a ≤ ⌊q⌋ := Int.le_floor.mpr h
  unfold pyRound
  split_ifs <;> omega

theorem pyRound_le {q : ℚ} {b : ℤ} (h : q ≤ (b : ℚ)) : pyRound q ≤ b := by
  have hfb : ⌊q⌋ ≤ b := by
    have := Int.floor_mono h
    simpa using this
  have hq : (⌊q⌋ : ℚ) ≤ q := Int.floor_le q
  have hstep : 1 / 2 ≤ q - (⌊q⌋ : ℚ) → ⌊q⌋ + 1 ≤ b := by
    intro hh
    have hcast : ((⌊q⌋ : ℤ) : ℚ) < (b : ℚ) := by linarith
    have : ⌊q⌋ < b := by exact_mod_cast hcast
    omega
  unfold pyRound
  split_ifs with h1 h2 h3
  · exact hfb
  · exact hstep (le_of_lt h2)
  · exact hfb
  · exact hstep (not_lt.mp h1)

theorem pyRound_intCast (n : ℤ) : pyRound (n : ℚ) = n := by
  unfold pyRound
  rw [Int.floor_intCast]
  rw [if_pos (by norm_num)]

/-- C7: for every signal record whose quantitative fields lie in their
declared domains (pressure in [0,100], xg_total, sot and liquidity
non-negative, odds at least 1 when present), `compute_ev_score` returns
an integer in [0,100]; being a total Lean function, it never fails. -/
theorem score_in_range (m : Match)
    (hp : ∀ p ∈ m.pressure, 0 ≤ p ∧ p ≤ 100)
    (hx : ∀ x ∈ m.xg_total, 0 ≤ x)
    (hs : ∀ s ∈ m.sot, 0 ≤ s)
    (hl : ∀ l ∈ m.liquidity, 0 ≤ l)
    (ho : ∀ o ∈ m.odds_over25, 1 ≤ o) :
    0 ≤ compute_ev_score m ∧ compute_ev_score m ≤ 100 := by
  unfold compute_ev_score
  constructor
  · exact le_pyRound (by push_cast; exact le_max_left 0 _)
  · refine pyRound_le ?_
    push_cast
    exact max_le (by norm_num) (min_le_left _ _)

/-- Witness for C7 at a concrete in-domain record. -/
theorem score_in_range_witness :
    0 ≤ compute_ev_score ⟨"m1", some 74, some 2, some 8, some 2900000, some 2⟩ ∧
    compute_ev_score ⟨"m1", some 74, some 2, some 8, some 2900000, some 2⟩ ≤ 100 :=
  score_in_range ⟨"m1", some 74, some 2, some 8, some 2900000, some 2⟩
    (by intro p hp; cases hp; constructor <;> norm_num)
    (by intro x hx; cases hx; norm_num)
    (by intro s hs; cases hs; norm_num)
    (by intro l hl; cases hl; norm_num)
    (by intro o ho; cases ho; norm_num)

/-- C10: a record with pressure, xg_total, sot and liquidity all absent
scores exactly 20: the missing pressure defaults to 50, contributing 10
points — not 0 — on top of the two fixed bonuses summing to 10.  Had the
pressure defaulted to 0, as witnessed by an explicit pressure of 0, the
score would be 10. -/
theorem score_all_absent (m : Match) (hp : m.pressure = none)
    (hx : m.xg_total = none) (hs : m.sot = none) (hl : m.liquidity = none) :
    compute_ev_score m = 20 ∧
    ∀ m2 : Match, m2.pressure = some 0 → m2.xg_total = none → m2.sot = none →
      m2.liquidity = none → compute_ev_score m2 = 10 := by
  constructor
  · unfold compute_ev_score
    rw [hp, hx, hs, hl]
    decide
  · intro m2 hp2 hx2 hs2 hl2
    unfold compute_ev_score
    rw [hp2, hx2, hs2, hl2]
    decide

/-- Witness for C10 at concrete records. -/
theorem score_all_absent_witness :
    compute_ev_score ⟨"w10", none, none, none, none, none⟩ = 20 ∧
    compute_ev_score ⟨"w10b", some 0, none, none, none, none⟩ = 10 :=
  ⟨(score_all_absent ⟨"w10", none, none, none, none, none⟩ rfl rfl rfl rfl).1,
    (score_all_absent ⟨"w10", none, none, none, none, none⟩ rfl rfl rfl rfl).2
      ⟨"w10b", some 0, none, none, none, none⟩ rfl rfl rfl rfl⟩

/-- C5 counterexample: the all-maxed input (pressure 100, xg_total 3, sot
10, liquidity 3,000,000) scores 90, not 100: the four capped
contributions max out at 20 + 30 + 20 + 10 = 80 and the fixed bonuses add
only 10. -/
theorem all_maxed_not_100 :
    compute_ev_score ⟨"mx", some 100, some 3, some 10, some 3000000, none⟩ = 90 ∧
    compute_ev_score ⟨"mx", some 100, some 3, some 10, some 3000000, none⟩ ≠ 100 := by
  constructor <;> decide

/-- C5 (amended): an all-maxed signal input (pressure exactly 100,
xg_total at or above 3, sot at or above 10, liquidity at or above
3,000,000) yields a score of exactly 90 from the Scorer. -/
theorem all_maxed_score (ident : String) (o : Option ℚ) (xg sot liq : ℚ)
    (hx : 3 ≤ xg) (hs : 10 ≤ sot) (hl : 3000000 ≤ liq) :
    compute_ev_score ⟨ident, some 100, some xg, some sot, some liq, o⟩ = 90 := by
  unfold compute_ev_score
  simp only [Option.getD_some]
  rw [min_eq_right (by linarith : (1:ℚ) ≤ xg / 3),
    min_eq_right (by linarith : (1:ℚ) ≤ sot / 10),
    min_eq_right (by linarith : (1:ℚ) ≤ liq / 3000000)]
  have h90 : (100 : ℚ) / 100 * 20 + 1 * 30 + 1 * 20 + 1 * 10 + 6 + 4 = ((90 : ℤ) : ℚ) := by
    norm_num
  rw [h90, min_eq_right (by norm_num), max_eq_right (by norm_num), pyRound_intCast]

/-- Witness for C5 (amended) at the exact maxima. -/
theorem all_maxed_score_witness :
    (3 : ℚ) ≤ 3 ∧ (10 : ℚ) ≤ 10 ∧ (3000000 : ℚ) ≤ 3000000 ∧
    compute_ev_score ⟨"mw", some 100, some 3, some 10, some 3000000, none⟩ = 90 :=
  ⟨le_refl 3, le_refl 10, le_refl 3000000,
    all_maxed_score "mw" none 3 10 3000000 (le_refl 3) (le_refl 10) (le_refl 3000000)⟩

/-- C8: with the default thresholds (enter threshold 65, hard-coded
display threshold 55, odds floor 1.50), for a record carrying an odds
value `decide_action` follows the priority rule: `ENTRAR` iff score ≥ 65
and odds ≥ 1.50; else `MONITORAR` iff 55 ≤ score < 65; else `IGNORAR`.
Instantiating: score 72 with odds 1.60 gives `ENTRAR`, score 60 with odds
1.60 gives `MONITORAR`, and score 40 gives `IGNORAR` whatever the odds. -/
theorem decide_priority_rule (m : Match) (odds : ℚ) (s : ℤ)
    (h : m.odds_over25 = some odds) :
    (decide_action 65 (3 / 2) m s = .ENTRAR ↔ 65 ≤ s ∧ 3 / 2 ≤ odds) ∧
    (decide_action 65 (3 / 2) m s = .MONITORAR ↔ 55 ≤ s ∧ s < 65) ∧
    (decide_action 65 (3 / 2) m s = .IGNORAR ↔
      ¬(65 ≤ s ∧ 3 / 2 ≤ odds) ∧ ¬(55 ≤ s ∧ s < 65)) := by
  unfold decide_action
  rw [h]
  simp only [Option.getD_some]
  split_ifs with h1 h2 <;>
    constructor <;>
    try constructor
  all_goals simp_all

/-- Witness for C8 at score 72, odds 1.60. -/
theorem decide_priority_rule_witness :
    (⟨"w8", none, none, none, none, some (8 / 5)⟩ : Match).odds_over25 = some (8 / 5) ∧
    (decide_action 65 (3 / 2) ⟨"w8", none, none, none, none, some (8 / 5)⟩ 72 = .ENTRAR ↔
      (65 : ℤ) ≤ 72 ∧ (3 / 2 : ℚ) ≤ 8 / 5) :=
  ⟨rfl, (decide_priority_rule ⟨"w8", none, none, none, none, some (8 / 5)⟩ (8 / 5) 72 rfl).1⟩

/-- Order on decisions used to express monotonicity:
`IGNORAR < MONITORAR < ENTRAR`. -/
def decisionLevel : Decision → Nat
  | .IGNORAR => 0
  | .MONITORAR => 1
  | .ENTRAR => 2

/-- C4 counterexample: with odds 1.40, below the 1.50 floor, raising the
score from 60 to 70 moves the decision from `MONITORAR` down to
`IGNORAR`, so `decide_action` is not monotonic in score for every fixed
odds value. -/
theorem decide_not_monotone :
    (60 : ℤ) ≤ 70 ∧
    decide_action 65 (3 / 2) ⟨"c4", none, none, none, none, some (7 / 5)⟩ 60 = .MONITORAR ∧
    decide_action 65 (3 / 2) ⟨"c4", none, none, none, none, some (7 / 5)⟩ 70 = .IGNORAR ∧
    decisionLevel (decide_action 65 (3 / 2) ⟨"c4", none, none, none, none, some (7 / 5)⟩ 70) <
      decisionLevel (decide_action 65 (3 / 2) ⟨"c4", none, none, none, none, some (7 / 5)⟩ 60) := by
  refine ⟨by norm_num, ?_, ?_, ?_⟩ <;> decide

/-- Arithmetic characterization of the decision level assigned by
`decide_action`. -/
theorem decisionLevel_decide_action (thr : ℤ) (om : ℚ) (m : Match) (s : ℤ) :
    decisionLevel (decide_action thr om m s) =
      if thr ≤ s ∧ om ≤ m.odds_over25.getD 99 then 2
      else if 55 ≤ s ∧ s < thr then 1 else 0 := by
  unfold decide_action
  split_ifs <;> rfl

/-- C4 (amended): the Decision Engine is monotonic in score whenever the
record has (possibly defaulted) odds passing the odds floor — in particular
for any record whose odds field is missing; when the odds fail the floor,
raising the score can demote `MONITORAR` to `IGNORAR` (see the
counterexample). -/
theorem decide_monotone (thr : ℤ) (om : ℚ) (m : Match) (s1 s2 : ℤ)
    (hodds : om ≤ m.odds_over25.getD 99) (h : s1 ≤ s2) :
    decisionLevel (decide_action thr om m s1) ≤
      decisionLevel (decide_action thr om m s2) := by
  rw [decisionLevel_decide_action, decisionLevel_decide_action]
  simp only [hodds, and_true]
  split_ifs <;> omega

/-- Witness for C4 (amended): odds 2.00 pass the floor, score raised from
60 to 70. -/
theorem decide_monotone_witness :
    (3 / 2 : ℚ) ≤ (⟨"w4", none, none, none, none, some 2⟩ : Match).odds_over25.getD 99 ∧
    (60 : ℤ) ≤ 70 ∧
    decisionLevel (decide_action 65 (3 / 2) ⟨"w4", none, none, none, none, some 2⟩ 60) ≤
      decisionLevel (decide_action 65 (3 / 2) ⟨"w4", none, none, none, none, some 2⟩ 70) :=
  ⟨by decide, by norm_num,
    decide_monotone 65 (3 / 2) ⟨"w4", none, none, none, none, some 2⟩ 60 70
      (by decide) (by norm_num)⟩

/-- C2 counterexample: a record with no odds field and maxed signals is
scored 90 and decided `ENTRAR` — the missing odds default to 99, which
passes the 1.50 floor — contradicting the claim that records with
missing odds can never reach `Enter`. -/
theorem missing_odds_enter_cex :
    (⟨"c2", some 100, some 3, some 10, some 3000000, none⟩ : Match).odds_over25 = none ∧
    (scoreDecide 65 (3 / 2) ⟨"c2", some 100, some 3, some 10, some 3000000, none⟩).ev_score
      = 90 ∧
    (scoreDecide 65 (3 / 2) ⟨"c2", some 100, some 3, some 10, some 3000000, none⟩).decision
      = .ENTRAR := by
  refine ⟨rfl, ?_, ?_⟩ <;> decide

/-- C2 (amended): a missing odds field is treated as 99 by
`decide_action`, and 99 passes any odds floor not exceeding 99 — in
particular the default 1.50 — so a record with missing odds is decided
`ENTRAR` exactly when its score reaches the enter threshold, regardless
of the odds gate. -/
theorem missing_odds_default (thr : ℤ) (om : ℚ) (m : Match) (s : ℤ)
    (hnone : m.odds_over25 = none) (hom : om ≤ 99) :
    decide_action thr om m s = .ENTRAR ↔ thr ≤ s := by
  unfold decide_action
  rw [hnone]
  simp only [Option.getD_none]
  by_cases hts : thr ≤ s
  · rw [if_pos ⟨hts, hom⟩]
    simpa using hts
  · rw [if_neg (by rintro ⟨hx, -⟩; exact hts hx)]
    split_ifs <;> simp [hts]

/-- Witness for C2 (amended) at the default thresholds, score 72. -/
theorem missing_odds_default_witness :
    (⟨"w2", none, none, none, none, none⟩ : Match).odds_over25 = none ∧ (3 / 2 : ℚ) ≤ 99 ∧
    (decide_action 65 (3 / 2) ⟨"w2", none, none, none, none, none⟩ 72 = .ENTRAR ↔
      (65 : ℤ) ≤ 72) :=
  ⟨rfl, by decide, missing_odds_default 65 (3 / 2) ⟨"w2", none, none, none, none, none⟩ 72
    rfl (by decide)⟩

/-- C3 counterexample: with scores [80, 80, 70] and liquidities
[100, 200, 500] — the scenario scores of 90 are unattainable at such
low liquidities, since the non-liquidity contributions cap at 80 — the
display order produced by `rank` puts the 500-liquidity (70-score)
record FIRST, not the order claimed for tied scores (200-liquidity
record, 100-liquidity record, then the lower-score record): the sort
runs before scoring and its only key is liquidity, not the lexicographic
pair (score, liquidity). -/
theorem rank_order_cex :
    compute_ev_score ⟨"a", some 100, some 3, some 10, some 100, none⟩ = 80 ∧
    compute_ev_score ⟨"b", some 100, some 3, some 10, some 200, none⟩ = 80 ∧
    compute_ev_score ⟨"c", some 100, some 3, some 5, some 500, none⟩ = 70 ∧
    rank 10
        [⟨"a", some 100, some 3, some 10, some 100, none⟩,
          ⟨"b", some 100, some 3, some 10, some 200, none⟩,
          ⟨"c", some 100, some 3, some 5, some 500, none⟩] =
      [⟨"c", some 100, some 3, some 5, some 500, none⟩,
        ⟨"b", some 100, some 3, some 10, some 200, none⟩,
        ⟨"a", some 100, some 3, some 10, some 100, none⟩] ∧
    rank 10
        [⟨"a", some 100, some 3, some 10, some 100, none⟩,
          ⟨"b", some 100, some 3, some 10, some 200, none⟩,
          ⟨"c", some 100, some 3, some 5, some 500, none⟩] ≠
      [⟨"b", some 100, some 3, some 10, some 200, none⟩,
        ⟨"a", some 100, some 3, some 10, some 100, none⟩,
        ⟨"c", some 100, some 3, some 5, some 500, none⟩] := by
  refine ⟨?_, ?_, ?_, ?_, ?_⟩ <;> decide

/-- C3 (amended): the Ranker sorts the records of the current cycle descending
by liquidity alone (stably; the sort happens before scoring, so the score
is not part of the key) and truncates to at most `max_games`; for records
with scores [80, 80, 70] and liquidities [100, 200, 500], the output
order is the 500-liquidity (70-score) record, then the 200-liquidity
record, then the 100-liquidity record. -/
theorem rank_liquidity_only :
    (∀ (mg : Nat) (ms : List Match),
      List.Pairwise liqGE (rank mg ms) ∧ (rank mg ms).length ≤ mg) ∧
    rank 10
        [⟨"a", some 100, some 3, some 10, some 100, none⟩,
          ⟨"b", some 100, some 3, some 10, some 200, none⟩,
          ⟨"c", some 100, some 3, some 5, some 500, none⟩] =
      [⟨"c", some 100, some 3, some 5, some 500, none⟩,
        ⟨"b", some 100, some 3, some 10, some 200, none⟩,
        ⟨"a", some 100, some 3, some 10, some 100, none⟩] := by
  refine ⟨fun mg ms => ⟨?_, ?_⟩, by decide⟩
  · exact (List.sorted_insertionSort liqGE ms).sublist (List.take_sublist mg _)
  · exact List.length_take_le mg _

/-- C9: in every cycle in which zero processed records are decided
`ENTRAR`, the list of notifier invocations is empty — the Notifier is
never invoked, not even with an empty message — while `save_csv` still
receives exactly one row per record processed in the cycle. -/
theorem no_enter_no_notify (thr : ℤ) (om : ℚ) (mg : Nat) (ms : List Match)
    (h : ∀ s ∈ (processCycle thr om mg ms).1, s.decision ≠ Decision.ENTRAR) :
    (processCycle thr om mg ms).2 = [] ∧
    (processCycle thr om mg ms).1.length = (rank mg ms).length := by
  constructor
  · simp only [processCycle] at h ⊢
    refine List.filter_eq_nil_iff.mpr ?_
    intro a ha
    have hd := h a ha
    cases hca : a.decision
    · exact absurd hca hd
    · simp [Decision.isEnter, hca]
    · simp [Decision.isEnter, hca]
  · simp [processCycle]

/-- Witness for C9: one low-signal record, scored 20 and ignored. -/
theorem no_enter_no_notify_witness :
    (∀ s ∈ (processCycle 65 (3 / 2) 10 [⟨"w9", none, none, none, none, some 2⟩]).1,
      s.decision ≠ Decision.ENTRAR) ∧
    (processCycle 65 (3 / 2) 10 [⟨"w9", none, none, none, none, some 2⟩]).2 = [] ∧
    (processCycle 65 (3 / 2) 10 [⟨"w9", none, none, none, none, some 2⟩]).1.length =
      (rank 10 [⟨"w9", none, none, none, none, some 2⟩]).length :=
  ⟨by decide,
    no_enter_no_notify 65 (3 / 2) 10 [⟨"w9", none, none, none, none, some 2⟩] (by decide)⟩

/-- C6 counterexample: a cycle failure (here a fetch error) reaches the
top-level `except` handler of `main`, which terminates the whole process
with exit status 1 — the process does not stay alive to wait for a next
tick, and the exit outcome is distinct from any completed cycle. -/
theorem cycle_error_exits :
    mainRun 65 (3 / 2) 10 (Except.error "FetchError") = RunResult.exited 1 ∧
    RunResult.exited 1 ≠ RunResult.completed 0 :=
  ⟨rfl, by decide⟩

/-- C6 (amended): an error inside a cycle is caught at the single
top-level boundary of `main` — it never propagates out unhandled — and is
logged, but the process then exits with status 1 instead of returning to
idle, so no next cycle ever runs; an error-free fetch completes the cycle
normally. -/
theorem cycle_error_caught (thr : ℤ) (om : ℚ) (mg : Nat) (e : String)
    (ms : List Match) :
    mainRun thr om mg (Except.error e) = RunResult.exited 1 ∧
    mainRun thr om mg (Except.ok ms) =
      RunResult.completed (processCycle thr om mg ms).2.length :=
  ⟨rfl, rfl⟩

/-- A ledger already containing the identity makes every further cycle a
no-op: no alert is sent and the ledger is unchanged. -/
theorem dedupRun_of_mem (L : Finset String) (ident : String) (hm : ident ∈ L)
    (n : Nat) : dedupRun L ident n = (L, 0) := by
  induction n with
  | zero => rfl
  | succ k ih =>
      unfold dedupRun
      simp only [dedupCycle, shouldAlert]
      rw [if_neg (by simp [hm])]
      simp [ih]

/-- C1: over any `n + 1` consecutive cycles in which the same identity
qualifies for `Enter` every time, starting from a ledger that does not
yet contain it, exactly one `Enter` notification is sent; and an
identity already present in the ledger never produces another terminal
alert, over any number of further cycles. -/
theorem dedup_exactly_one (L : Finset String) (ident : String) (n : Nat)
    (h : ident ∉ L) :
    (dedupRun L ident (n + 1)).2 = 1 ∧
    ∀ (L2 : Finset String) (k : Nat), ident ∈ L2 → (dedupRun L2 ident k).2 = 0 := by
  constructor
  · unfold dedupRun
    simp only [dedupCycle, shouldAlert, recordAlert]
    rw [if_pos (by simp [h])]
    simp [dedupRun_of_mem (insert ident L) ident (Finset.mem_insert_self ident L) n]
  · intro L2 k hm
    simp [dedupRun_of_mem L2 ident hm k]

/-- Witness for C1: a fresh identity over three qualifying cycles. -/
theorem dedup_exactly_one_witness :
    "m1" ∉ (∅ : Finset String) ∧
    (dedupRun ∅ "m1" 3).2 = 1 ∧
    ∀ (L2 : Finset String) (k : Nat), "m1" ∈ L2 → (dedupRun L2 "m1" k).2 = 0 :=
  ⟨by simp, (dedup_exactly_one ∅ "m1" 2 (by simp)).1, (dedup_exactly_one ∅ "m1" 2 (by simp)).2⟩
